import Mathlib

/-!
Verification of the coursio schedule-generation and activity-ordering engine.

The definitions below are a shallow embedding of `src/APP/server.js`.
Calendar dates are modelled as day numbers (Nat): the JS code parses
`YYYY-MM-DD` strings into `Date` values, normalizes them to midnight and
adds whole days with `setDate`, which under a UTC process timezone is plain
day arithmetic on the civil calendar.  `daysFromCivil` maps a civil
(year, month, day) triple to such a day number (Gregorian calendar,
valid for year ≥ 1), so concrete dates from the specification can be
written exactly.

The relational store is modelled as in-memory lists of rows (`DB`), with
MariaDB transactions rendered as pure state passing: a handler returns the
final state, and a rolled-back transaction simply returns the state from
before its writes.  The single-teacher scoping (`teacher_id = ?` in every
query) is modelled by dropping the teacher column: every ownership check
becomes a plain existence check, which is faithful for a fixed caller.
-/

namespace Coursio

/-- Mirror of `slotToPeriod = ['matin', 'apres_midi']` (server.js:18). -/
def slotToPeriod : List String := ["matin", "apres_midi"]

/-- Mirror of `supportedFormats` (server.js:9-17). -/
def supportedFormats : List String :=
  ["presentation", "exercice", "travail_de_groupe", "jeu",
   "recherche_information", "synthese", "evaluation"]

/-- Day number of a civil Gregorian date (year ≥ 1), counting from
0000-03-01; only differences and successor relations between such day
numbers are used, mirroring what `Date.setDate` arithmetic observes. -/
def daysFromCivil (y m d : Nat) : Nat :=
  let yAdj := if m ≤ 2 then y - 1 else y
  let era := yAdj / 400
  let yoe := yAdj % 400
  let mp := (m + 9) % 12
  let doy := (153 * mp + 2) / 5 + d - 1
  let doe := yoe * 365 + yoe / 4 - yoe / 100 + doy
  era * 146097 + doe

/-- Mirror of `computeHalfDaySession` (server.js:208-224).  `baseDate` is the
start date advanced by `(weekNumber - 1) * 7` days (the `setDate` call on
the midnight-normalized date); the session date adds `dayOffset` days and
the period is `slotToPeriod[slotOffset % 2]`. -/
def computeHalfDaySession (startDate startSlotIndex weekNumber slotIndex : Nat) :
    Nat × String :=
  let baseDate := startDate + (weekNumber - 1) * 7
  let slotOffset := startSlotIndex + slotIndex
  let dayOffset := slotOffset / 2
  let period := slotToPeriod.getD (slotOffset % 2) ""
  (baseDate + dayOffset, period)

/-- One element of the expected half-day grid built by
`buildExpectedHalfDays` (server.js:226-242). -/
structure ExpectedHalfDay where
  weekNumber : Nat
  slotIndex : Nat
  sessionDate : Nat
  period : String
deriving DecidableEq, Repr

/-- Mirror of `buildExpectedHalfDays` (server.js:226-242): for
`week = startingWeekNumber .. 5` and `slot = 0 .. 2`, the session computed
with the relative week `week - startingWeekNumber + 1`. -/
def buildExpectedHalfDays (startDate startSlotIndex startingWeekNumber : Nat) :
    List ExpectedHalfDay :=
  ((List.range (6 - startingWeekNumber)).map (fun i => startingWeekNumber + i)).flatMap
    (fun week =>
      (List.range 3).map (fun slot =>
        let s := computeHalfDaySession startDate startSlotIndex
          (week - startingWeekNumber + 1) slot
        { weekNumber := week, slotIndex := slot, sessionDate := s.1, period := s.2 }))

/-- A `half_days` row. -/
structure HalfDayRow where
  id : Nat
  courseId : Nat
  weekNumber : Nat
  slotIndex : Nat
  sessionDate : Nat
  period : String
deriving DecidableEq, Repr

/-- An `activities` row.  `position` is `SMALLINT UNSIGNED NULL`. -/
structure ActivityRow where
  id : Nat
  halfDayId : Nat
  specificObjective : String
  description : String
  durationMinutes : Int
  format : String
  materials : Option String
  position : Option Nat
deriving DecidableEq, Repr

/-- A `courses` row (the columns the engine reads; `start_period` is kept
as the raw string the `slotToPeriod.indexOf` lookup receives). -/
structure Course where
  id : Nat
  startDate : Nat
  startPeriod : String
deriving DecidableEq, Repr

/-- The relational store, with the `AUTO_INCREMENT` counters made explicit. -/
structure DB where
  courses : List Course
  halfDays : List HalfDayRow
  activities : List ActivityRow
  nextHalfDayId : Nat
  nextActivityId : Nat
deriving DecidableEq, Repr

/-- Untyped JSON body values, as the JS handlers receive them. -/
inductive JsVal
  | undef
  | nullv
  | str (s : String)
  | num (n : Int)
  | boolean (b : Bool)
deriving DecidableEq, Repr

/-- JavaScript truthiness on `JsVal`. -/
def JsVal.truthy : JsVal → Bool
  | .undef => false
  | .nullv => false
  | .str s => s ≠ ""
  | .num n => n ≠ 0
  | .boolean b => b

/-- The error categories the handlers answer with (HTTP 400 / 404 / 500). -/
inductive ApiError
  | badRequest
  | notFound
  | serverError
deriving DecidableEq, Repr

/-- Returns `true` exactly on `Except.error`. -/
def isErr : Except ApiError α → Bool
  | .error _ => true
  | .ok _ => false

/-- Insert `x` in front of the first element it compares `le` to. -/
def insertSorted (le : α → α → Bool) (x : α) : List α → List α
  | [] => [x]
  | y :: ys => if le x y then x :: y :: ys else y :: insertSorted le x ys

/-- Insertion sort with boolean comparison `le`. -/
def sortWith (le : α → α → Bool) : List α → List α
  | [] => []
  | x :: xs => insertSorted le x (sortWith le xs)

/-- Comparison for `ORDER BY h.week_number, h.slot_index` (server.js:269). -/
def halfDayLe (a b : HalfDayRow) : Bool :=
  a.weekNumber < b.weekNumber ||
    (a.weekNumber == b.weekNumber && a.slotIndex ≤ b.slotIndex)

/-- Comparison for `ORDER BY position IS NULL, position, id` (server.js:246). -/
def activityLe (a b : ActivityRow) : Bool :=
  match a.position, b.position with
  | none, none => a.id ≤ b.id
  | none, some _ => false
  | some _, none => true
  | some p, some q => p < q || (p == q && a.id ≤ b.id)

/-- Mirror of `listCourseHalfDays` (server.js:263-274). -/
def listCourseHalfDays (db : DB) (courseId : Nat) : List HalfDayRow :=
  sortWith halfDayLe (db.halfDays.filter (fun h => h.courseId == courseId))

/-- Mirror of `getCourse` (server.js:276-295), scoped to the calling teacher. -/
def getCourse (db : DB) (courseId : Nat) : Option Course :=
  db.courses.find? (fun c => c.id == courseId)

/-- Mirror of `getOrderedActivityIds` (server.js:244-251). -/
def getOrderedActivityIds (db : DB) (halfDayId : Nat) : List Nat :=
  (sortWith activityLe (db.activities.filter (fun a => a.halfDayId == halfDayId))).map
    (fun a => a.id)

/-- Mirror of `resequenceHalfDayPositions` (server.js:253-261): rewrite
`position = index + 1` along the canonical order.  Its only caller is the
unreachable tail of the move transaction. -/
def resequenceHalfDayPositions (db : DB) (halfDayId : Nat) : DB :=
  let activityIds := getOrderedActivityIds db halfDayId
  { db with
    activities := db.activities.map (fun a =>
      match activityIds.findIdx? (fun i => i == a.id) with
      | some idx => { a with position := some (idx + 1) }
      | none => a) }

/-- The insert loop of `ensureHalfDaysForCourse` (server.js:322-333):
walk the expected grid, skip keys present in `existingKeys`, insert the
rest with fresh ids. -/
def insertMissingHalfDays (courseId : Nat) (existingKeys : List (Nat × Nat)) :
    List ExpectedHalfDay → DB → DB
  | [], db => db
  | h :: rest, db =>
    if existingKeys.contains (h.weekNumber, h.slotIndex) then
      insertMissingHalfDays courseId existingKeys rest db
    else
      insertMissingHalfDays courseId existingKeys rest
        { db with
          halfDays := db.halfDays ++
            [{ id := db.nextHalfDayId, courseId := courseId,
               weekNumber := h.weekNumber, slotIndex := h.slotIndex,
               sessionDate := h.sessionDate, period := h.period }],
          nextHalfDayId := db.nextHalfDayId + 1 }

/-- Mirror of `ensureHalfDaysForCourse` (server.js:297-344).  A missing period in
`slotToPeriod` is the `startSlotIndex === -1` early return; a JS `DATE`
value is always truthy, so the `!course.startDate` guard has no
counterpart in the day-number model. -/
def ensureHalfDaysForCourse (db : DB) (courseId : Nat) : List HalfDayRow × DB :=
  match getCourse db courseId with
  | none => ([], db)
  | some course =>
    match slotToPeriod.findIdx? (fun p => p == course.startPeriod) with
    | none => ([], db)
    | some startSlotIndex =>
      let existingHalfDays := listCourseHalfDays db courseId
      if 15 ≤ existingHalfDays.length then
        (existingHalfDays, db)
      else
        let expectedHalfDays := buildExpectedHalfDays course.startDate startSlotIndex 1
        let existingKeys := existingHalfDays.map (fun h => (h.weekNumber, h.slotIndex))
        let db' := insertMissingHalfDays courseId existingKeys expectedHalfDays db
        (listCourseHalfDays db' courseId, db')

/-- Mirror of `getHalfDayForCourse` (server.js:346-370).  The second `SELECT` re-reads
the id of the unique row with the matched key; it is the row just found, so
the model returns that row. -/
def getHalfDayForCourse (db : DB) (courseId weekNumber slotIndex : Nat) :
    Option HalfDayRow × DB :=
  let res := ensureHalfDaysForCourse db courseId
  match res.1.find? (fun h => h.weekNumber == weekNumber && h.slotIndex == slotIndex) with
  | none => (none, res.2)
  | some h => (some h, res.2)

/-- The `SELECT a.id, h.course_id FROM activities a INNER JOIN half_days h
... INNER JOIN courses c ...` lookup shared by the edit, delete and move
handlers (server.js:940-948, 1050-1058, 1082-1090): the activity row
together with its owning course id, provided the joined half-day and
course rows exist. -/
def findActivityCourseId (db : DB) (activityId : Int) :
    Option (ActivityRow × Nat) :=
  match db.activities.find? (fun a => (a.id : Int) == activityId) with
  | none => none
  | some a =>
    match db.halfDays.find? (fun h => h.id == a.halfDayId) with
    | none => none
    | some h =>
      if db.courses.any (fun c => c.id == h.courseId) then some (a, h.courseId)
      else none

/-- Check `if (courseId && Number(courseId) !== activityCourseId)`
(server.js:956, 1098): a body `courseId` is compared only when truthy,
i.e. present and nonzero. -/
def jsCourseMismatch (courseId : Option Int) (activityCourseId : Nat) : Bool :=
  match courseId with
  | none => false
  | some c => c != 0 && c != (activityCourseId : Int)

/-- JavaScript `String.prototype.trim`: strip leading and trailing
whitespace (written out over the character list so that it computes by
kernel reduction). -/
def jsTrim (s : String) : String :=
  ⟨(((s.data.dropWhile Char.isWhitespace).reverse).dropWhile
      Char.isWhitespace).reverse⟩

/-- Expression `(details || '').trim() || 'Description à compléter'`
(server.js:905, 985).  A falsy `details` is replaced by the empty string
and trimmed to the default; a truthy non-string has no `.trim` method, so
the expression throws a `TypeError` (modelled as `Except.error ()`), which
the surrounding `catch` turns into a 500 answer. -/
def sanitizeDescription (details : JsVal) : Except Unit String :=
  match (if details.truthy then details else .str "") with
  | .str s =>
    let t := jsTrim s
    .ok (if t = "" then "Description à compléter" else t)
  | _ => .error ()

/-- Expression `materials && typeof materials === 'string' ? materials.trim() : null`
(server.js:906, 986). -/
def sanitizeMaterials (materials : JsVal) : Option String :=
  match materials with
  | .str s => if s = "" then none else some (jsTrim s)
  | _ => none

/-- Aggregate `COALESCE(MAX(position), 0)` over one half-day's activities
(server.js:1008-1011); SQL `MAX` ignores NULLs. -/
def maxPositionIn (activities : List ActivityRow) (halfDayId : Nat) : Nat :=
  ((activities.filter (fun a => a.halfDayId == halfDayId)).filterMap
    (fun a => a.position)).foldr max 0

/-- Body of `PATCH /api/activities/:activityId/move` (server.js:1073-1170). -/
structure MoveRequest where
  week : Int
  slot : Int
  courseId : Option Int
  position : Option Int
deriving DecidableEq, Repr

/-- The move handler (server.js:1073-1170).  On success it would answer
`(halfDayId, sanitizedPosition + 1)`; the transaction body reads the
target ordering and then evaluates `existingActivity.halfDayId`
(server.js:1131), but `existingActivity` is a `const` local to the edit
handler (server.js:954) and is not declared in this handler, so a
`ReferenceError` is thrown, the `catch` block rolls the transaction back
and the route answers 500. -/
def moveActivity (db : DB) (activityId : Int) (req : MoveRequest) :
    Except ApiError (Nat × Nat) × DB :=
  if activityId ≤ 0 then (.error .badRequest, db)
  else
    match findActivityCourseId db activityId with
    | none => (.error .notFound, db)
    | some (_a, activityCourseId) =>
      if jsCourseMismatch req.courseId activityCourseId then (.error .badRequest, db)
      else if req.week < 1 ∨ 5 < req.week then (.error .badRequest, db)
      else if req.slot < 0 ∨ 2 < req.slot then (.error .badRequest, db)
      else if (match req.position with | some p => decide (p < 0) | none => false) then
        (.error .badRequest, db)
      else
        match getHalfDayForCourse db activityCourseId req.week.toNat req.slot.toNat with
        | (none, db1) => (.error .serverError, db1)
        | (some halfDay, db1) =>
          let _targetActivityIds := getOrderedActivityIds db1 halfDay.id
          -- server.js:1131 dereferences the undeclared `existingActivity`:
          -- ReferenceError, rollback, HTTP 500.  Nothing was written yet,
          -- so the rolled-back state is `db1` itself.
          (.error .serverError, db1)

/-- Body of `POST /api/activities` (server.js:866-929). -/
structure CreateRequest where
  name : JsVal
  week : Int
  slot : Int
  format : JsVal
  details : JsVal
  duration : Int
  materials : JsVal
  courseId : Int
deriving DecidableEq, Repr

/-- Successful answer of the create handler (server.js:919-924). -/
structure CreateResponse where
  activityId : Nat
  halfDayId : Nat
  sessionDate : Nat
  period : String
deriving DecidableEq, Repr

/-- The create handler (server.js:866-929).  The `INSERT INTO activities`
at server.js:913-917 names no `position` column, so the new row is stored
with `position = NULL`. -/
def createActivity (db : DB) (req : CreateRequest) :
    Except ApiError CreateResponse × DB :=
  match req.name with
  | .str nameStr =>
    if nameStr = "" then (.error .badRequest, db)
    else if req.courseId ≤ 0 then (.error .badRequest, db)
    else if ¬ db.courses.any (fun c => (c.id : Int) == req.courseId) then
      (.error .notFound, db)
    else if req.week < 1 ∨ 5 < req.week then (.error .badRequest, db)
    else if req.slot < 0 ∨ 2 < req.slot then (.error .badRequest, db)
    else if ¬ supportedFormats.contains
        (match req.format with | .str s => s | _ => "") then
      (.error .badRequest, db)
    else if req.duration ≤ 0 then (.error .badRequest, db)
    else
      match sanitizeDescription req.details with
      | .error _ => (.error .serverError, db)
      | .ok description =>
        match getHalfDayForCourse db req.courseId.toNat req.week.toNat req.slot.toNat with
        | (none, db1) => (.error .serverError, db1)
        | (some halfDay, db1) =>
          let row : ActivityRow :=
            { id := db1.nextActivityId, halfDayId := halfDay.id,
              specificObjective := jsTrim nameStr, description := description,
              durationMinutes := req.duration,
              format := (match req.format with | .str s => s | _ => ""),
              materials := sanitizeMaterials req.materials, position := none }
          (.ok { activityId := db1.nextActivityId, halfDayId := halfDay.id,
                 sessionDate := halfDay.sessionDate, period := halfDay.period },
           { db1 with activities := db1.activities ++ [row],
                      nextActivityId := db1.nextActivityId + 1 })
  | _ => (.error .badRequest, db)

/-- Body of `PATCH /api/activities/:activityId` (server.js:931-1040). -/
structure EditRequest where
  name : JsVal
  week : Int
  slot : Int
  format : JsVal
  details : JsVal
  duration : Int
  materials : JsVal
  courseId : Option Int
deriving DecidableEq, Repr

/-- The row update performed by the edit handler's `UPDATE activities SET
... WHERE id = ?` (server.js:1020-1025): content fields always, and the
`position` column only when `changesHalfDay` (the `positionClause` of
server.js:1007-1016). -/
def editUpdateRow (activityId : Int) (targetId : Nat) (changesHalfDay : Bool)
    (nextPosition : Nat) (objective description : String) (duration : Int)
    (format : String) (materials : Option String) (a : ActivityRow) :
    ActivityRow :=
  if (a.id : Int) == activityId then
    { a with
      halfDayId := targetId,
      specificObjective := objective,
      description := description,
      durationMinutes := duration,
      format := format,
      materials := materials,
      position := if changesHalfDay then some nextPosition else a.position }
  else a

/-- The edit handler (server.js:931-1040).  When the target half-day
differs from the activity's current one, the update also sets
`position = COALESCE(MAX(position), 0) + 1` over the target half-day
(server.js:1007-1016); otherwise the `UPDATE` carries no position clause. -/
def editActivity (db : DB) (activityId : Int) (req : EditRequest) :
    Except ApiError Nat × DB :=
  if activityId ≤ 0 then (.error .badRequest, db)
  else
    match findActivityCourseId db activityId with
    | none => (.error .notFound, db)
    | some (existingActivity, existingCourseId) =>
      if jsCourseMismatch req.courseId existingCourseId then (.error .badRequest, db)
      else
        match req.name with
        | .str nameStr =>
          if nameStr = "" then (.error .badRequest, db)
          else if req.week < 1 ∨ 5 < req.week then (.error .badRequest, db)
          else if req.slot < 0 ∨ 2 < req.slot then (.error .badRequest, db)
          else if ¬ supportedFormats.contains
              (match req.format with | .str s => s | _ => "") then
            (.error .badRequest, db)
          else if req.duration ≤ 0 then (.error .badRequest, db)
          else
            match sanitizeDescription req.details with
            | .error _ => (.error .serverError, db)
            | .ok description =>
              match getHalfDayForCourse db existingCourseId req.week.toNat req.slot.toNat with
              | (none, db1) => (.error .serverError, db1)
              | (some targetHalfDay, db1) =>
                let changesHalfDay := targetHalfDay.id != existingActivity.halfDayId
                let nextPosition := maxPositionIn db1.activities targetHalfDay.id + 1
                let db2 :=
                  { db1 with
                    activities := db1.activities.map
                      (editUpdateRow activityId targetHalfDay.id changesHalfDay
                        nextPosition (jsTrim nameStr) description req.duration
                        (match req.format with | .str s => s | _ => "")
                        (sanitizeMaterials req.materials)) }
                (.ok targetHalfDay.id, db2)
        | _ => (.error .badRequest, db)

/-- The upsert loop of the reschedule transaction (server.js:841-848):
`INSERT ... ON DUPLICATE KEY UPDATE session_date, period`, keyed by
`(course_id, week_number, slot_index)`. -/
def upsertHalfDays (courseId : Nat) : List ExpectedHalfDay → DB → DB
  | [], db => db
  | h :: rest, db =>
    let db' :=
      if db.halfDays.any (fun r =>
          r.courseId == courseId && r.weekNumber == h.weekNumber &&
            r.slotIndex == h.slotIndex) then
        { db with
          halfDays := db.halfDays.map (fun r =>
            if r.courseId == courseId && r.weekNumber == h.weekNumber &&
                r.slotIndex == h.slotIndex then
              { r with sessionDate := h.sessionDate, period := h.period }
            else r) }
      else
        { db with
          halfDays := db.halfDays ++
            [{ id := db.nextHalfDayId, courseId := courseId,
               weekNumber := h.weekNumber, slotIndex := h.slotIndex,
               sessionDate := h.sessionDate, period := h.period }],
          nextHalfDayId := db.nextHalfDayId + 1 }
    upsertHalfDays courseId rest db'

/-- Handler of `POST /api/courses/:courseId/weeks/:weekNumber/reschedule`
(server.js:803-864).  `startDate` is `none` when `isValidDateString`
fails, `some d` with the parsed day number otherwise. -/
def rescheduleWeek (db : DB) (courseId weekNumber : Int) (startDate : Option Nat) :
    Except ApiError (List HalfDayRow) × DB :=
  if courseId ≤ 0 then (.error .badRequest, db)
  else if weekNumber < 1 ∨ 5 < weekNumber then (.error .badRequest, db)
  else
    match startDate with
    | none => (.error .badRequest, db)
    | some newStart =>
      match getCourse db courseId.toNat with
      | none => (.error .notFound, db)
      | some course =>
        match slotToPeriod.findIdx? (fun p => p == course.startPeriod) with
        | none => (.error .badRequest, db)
        | some startSlotIndex =>
          let halfDaysToUpdate :=
            buildExpectedHalfDays newStart startSlotIndex weekNumber.toNat
          let db1 :=
            if weekNumber == 1 then
              { db with
                courses := db.courses.map (fun c =>
                  if c.id == courseId.toNat then { c with startDate := newStart }
                  else c) }
            else db
          let db2 := upsertHalfDays courseId.toNat halfDaysToUpdate db1
          (.ok (listCourseHalfDays db2 courseId.toNat), db2)

/-- The 15 half-days of course 1, ids 1..15 in grid order, start date 0,
start period `matin`. -/
def demoHalfDays : List HalfDayRow :=
  (buildExpectedHalfDays 0 0 1).enum.map (fun p =>
    { id := p.1 + 1, courseId := 1, weekNumber := p.2.weekNumber,
      slotIndex := p.2.slotIndex, sessionDate := p.2.sessionDate,
      period := p.2.period })

/-- Course 1 with its full half-day grid; half-day 1 (week 1, slot 0)
holds activities 1 and 2 at positions 1 and 2, half-day 2 (week 1, slot 1)
holds activity 3 at position 1. -/
def demoDB : DB :=
  { courses := [{ id := 1, startDate := 0, startPeriod := "matin" }],
    halfDays := demoHalfDays,
    activities :=
      [{ id := 1, halfDayId := 1, specificObjective := "a", description := "d",
         durationMinutes := 60, format := "exercice", materials := none,
         position := some 1 },
       { id := 2, halfDayId := 1, specificObjective := "b", description := "d",
         durationMinutes := 60, format := "exercice", materials := none,
         position := some 2 },
       { id := 3, halfDayId := 2, specificObjective := "c", description := "d",
         durationMinutes := 60, format := "jeu", materials := none,
         position := some 1 }],
    nextHalfDayId := 16, nextActivityId := 4 }

/-- A well-formed move request: activity 1 into half-day (week 1, slot 1). -/
def demoMoveReq : MoveRequest :=
  { week := 1, slot := 1, courseId := none, position := none }

/-- A valid create request targeting half-day (week 1, slot 2) of course 1,
which holds no activities in `demoDB`. -/
def demoCreateReq : CreateRequest :=
  { name := .str "A", week := 1, slot := 2, format := .str "jeu",
    details := .str " d ", duration := 30, materials := .undef, courseId := 1 }

/-- The same create request with a truthy non-string `details`. -/
def demoCreateReqNum : CreateRequest := { demoCreateReq with details := .num 1 }

/-- Course 1 with its grid; activity 1 sits in half-day 1 at position 1
and activity 2 is a legacy row of half-day 2 with the gapped position 5. -/
def db8 : DB :=
  { courses := [{ id := 1, startDate := 0, startPeriod := "matin" }],
    halfDays := demoHalfDays,
    activities :=
      [{ id := 1, halfDayId := 1, specificObjective := "a", description := "d",
         durationMinutes := 30, format := "exercice", materials := none,
         position := some 1 },
       { id := 2, halfDayId := 2, specificObjective := "b", description := "d",
         durationMinutes := 30, format := "jeu", materials := none,
         position := some 5 }],
    nextHalfDayId := 16, nextActivityId := 3 }

/-- An edit of activity 1 that moves it to half-day (week 1, slot 1). -/
def editMoveReq : EditRequest :=
  { name := .str "a", week := 1, slot := 1, format := .str "exercice",
    details := .str "d", duration := 30, materials := .undef,
    courseId := none }

/-- The 15 (weekNumber, slotIndex) keys of the full grid, week 1..5 by
slot 0..2, in the enumeration order of `buildExpectedHalfDays _ _ 1`. -/
def gridKeys : List (Nat × Nat) :=
  ((List.range 5).map (fun i => 1 + i)).flatMap (fun w => [(w, 0), (w, 1), (w, 2)])

/-- Course 1 with a single materialized half-day: the interesting,
gap-filling path of the Materializer. -/
def demoSparseDB : DB :=
  { courses := [{ id := 1, startDate := 0, startPeriod := "matin" }],
    halfDays := [{ id := 1, courseId := 1, weekNumber := 1, slotIndex := 0,
                   sessionDate := 0, period := "matin" }],
    activities := [], nextHalfDayId := 2, nextActivityId := 1 }

/-- C2.  The calendar mapper returns
`sessionDate = startDate + 7*(weekNumber-1) + ⌊(startSlotIndex+slotInWeek)/2⌋`
days and period morning (`matin`) when `startSlotIndex + slotInWeek` is even,
afternoon (`apres_midi`) when odd; in particular, for start date 2024-01-01
and start slot 0, week 1 slots 0, 1, 2 map to (2024-01-01, matin),
(2024-01-01, apres_midi), (2024-01-02, matin). -/
theorem computeHalfDaySession_spec (startDate s0 w slot : Nat)
    (hs0 : s0 ≤ 1) (hw1 : 1 ≤ w) (hw5 : w ≤ 5) (hslot : slot ≤ 2) :
    computeHalfDaySession startDate s0 w slot =
      (startDate + 7 * (w - 1) + (s0 + slot) / 2,
        if (s0 + slot) % 2 = 0 then "matin" else "apres_midi") ∧
    computeHalfDaySession (daysFromCivil 2024 1 1) 0 1 0 =
      (daysFromCivil 2024 1 1, "matin") ∧
    computeHalfDaySession (daysFromCivil 2024 1 1) 0 1 1 =
      (daysFromCivil 2024 1 1, "apres_midi") ∧
    computeHalfDaySession (daysFromCivil 2024 1 1) 0 1 2 =
      (daysFromCivil 2024 1 2, "matin") := by
  refine ⟨?_, by decide, by decide, by decide⟩
  unfold computeHalfDaySession
  rcases Nat.mod_two_eq_zero_or_one (s0 + slot) with h | h <;>
    simp only [h, slotToPeriod, List.getD, if_pos rfl] <;>
    simp [Prod.ext_iff, List.getD, slotToPeriod, h] <;>
    omega

/-- Closed instance of `computeHalfDaySession_spec`. -/
theorem computeHalfDaySession_spec_witness :
    computeHalfDaySession 100 0 1 2 =
      (100 + 7 * (1 - 1) + (0 + 2) / 2,
        if (0 + 2) % 2 = 0 then "matin" else "apres_midi") :=
  (computeHalfDaySession_spec 100 0 1 2 (by decide) (by decide) (by decide)
    (by decide)).1

theorem perm_insertSorted (le : α → α → Bool) (x : α) (l : List α) :
    List.Perm (insertSorted le x l) (x :: l) := by
  induction l with
  | nil => exact List.Perm.refl _
  | cons y ys ih =>
    unfold insertSorted
    by_cases h : le x y = true
    · simp [h]
    · simp only [h, if_neg, Bool.false_eq_true, not_false_eq_true]
      exact ((ih.cons y).trans (List.Perm.swap x y ys))

theorem perm_sortWith (le : α → α → Bool) (l : List α) :
    List.Perm (sortWith le l) l := by
  induction l with
  | nil => exact List.Perm.refl _
  | cons x xs ih => exact (perm_insertSorted le x (sortWith le xs)).trans (ih.cons x)

theorem length_sortWith (le : α → α → Bool) (l : List α) :
    (sortWith le l).length = l.length :=
  (perm_sortWith le l).length_eq

theorem mem_sortWith (le : α → α → Bool) (l : List α) (a : α) :
    a ∈ sortWith le l ↔ a ∈ l :=
  (perm_sortWith le l).mem_iff

theorem insertMissingHalfDays_activities (cid : Nat) (ks : List (Nat × Nat))
    (L : List ExpectedHalfDay) :
    ∀ db : DB, (insertMissingHalfDays cid ks L db).activities = db.activities := by
  induction L with
  | nil => intro db; rfl
  | cons h rest ih =>
    intro db
    unfold insertMissingHalfDays
    split
    · exact ih db
    · exact ih _

theorem insertMissingHalfDays_courses (cid : Nat) (ks : List (Nat × Nat))
    (L : List ExpectedHalfDay) :
    ∀ db : DB, (insertMissingHalfDays cid ks L db).courses = db.courses := by
  induction L with
  | nil => intro db; rfl
  | cons h rest ih =>
    intro db
    unfold insertMissingHalfDays
    split
    · exact ih db
    · exact ih _

theorem ensureHalfDaysForCourse_activities (db : DB) (cid : Nat) :
    ((ensureHalfDaysForCourse db cid).2).activities = db.activities := by
  unfold ensureHalfDaysForCourse
  split
  · rfl
  · split
    · rfl
    · simp only []
      split
      · rfl
      · exact insertMissingHalfDays_activities _ _ _ db

theorem ensureHalfDaysForCourse_courses (db : DB) (cid : Nat) :
    ((ensureHalfDaysForCourse db cid).2).courses = db.courses := by
  unfold ensureHalfDaysForCourse
  split
  · rfl
  · split
    · rfl
    · simp only []
      split
      · rfl
      · exact insertMissingHalfDays_courses _ _ _ db

theorem getHalfDayForCourse_activities (db : DB) (cid w s : Nat) :
    ((getHalfDayForCourse db cid w s).2).activities = db.activities := by
  unfold getHalfDayForCourse
  simp only []
  split <;> exact ensureHalfDaysForCourse_activities db cid

/-- C1.  The move handler can never complete successfully: every request,
whatever the store contents, ends in an error answer — validation failures
and lookups return 4xx, and any request that reaches the transaction dies
on the `ReferenceError` for the undeclared `existingActivity`
(server.js:1131) and answers 500.  The claim's guarantee about the
positions left by a successful move is therefore about an empty set of
executions: the code contradicts the spec's intended move operation. -/
theorem move_never_succeeds (db : DB) (activityId : Int) (req : MoveRequest) :
    isErr (moveActivity db activityId req).1 = true := by
  unfold moveActivity
  repeat' split <;> try rfl

/-- C4.  A move of activity 3 with requested position 99 (far beyond the
target list's length) does not clamp and append: the handler crashes on
the undeclared `existingActivity` before the clamping code at
server.js:1138-1140 runs, answers 500 and returns no position; the store
is left exactly as it was. -/
theorem move_clamp_dead_code :
    moveActivity demoDB 3
        { week := 1, slot := 0, courseId := none, position := some 99 } =
      (.error .serverError, demoDB) := by
  rfl

/-- C5.  Whenever a move request fails — and in this code every request
fails — the whole transaction rolls back: the activities table (each
activity's half-day attachment and position) is exactly as before the
request.  Half-day materialization performed by `getHalfDayForCourse`
before the transaction commits separately and never touches activities. -/
theorem move_failure_preserves_activities (db : DB) (activityId : Int)
    (req : MoveRequest)
    (hfail : isErr (moveActivity db activityId req).1 = true) :
    ((moveActivity db activityId req).2).activities = db.activities := by
  clear hfail
  unfold moveActivity
  split
  · rfl
  · split
    · rfl
    · rename_i a acid heq1
      split
      · rfl
      · split
        · rfl
        · split
          · rfl
          · split
            · rfl
            · have hact :=
                getHalfDayForCourse_activities db acid req.week.toNat req.slot.toNat
              set r := getHalfDayForCourse db acid req.week.toNat req.slot.toNat
                with hr
              rcases r with ⟨o, db1⟩
              cases o <;> simpa using hact

/-- Closed instance of `move_failure_preserves_activities`, at a valid
move request on the demo store. -/
theorem move_failure_preserves_activities_witness :
    isErr (moveActivity demoDB 1 demoMoveReq).1 = true ∧
    ((moveActivity demoDB 1 demoMoveReq).2).activities = demoDB.activities :=
  ⟨by decide, move_failure_preserves_activities demoDB 1 demoMoveReq (by decide)⟩

/-- C9.  A move request whose body names a (positive) course id different
from the course that owns the activity is answered with the validation
failure at server.js:1098-1100, before the transaction and before the
half-day materialization: the returned store is exactly the input store. -/
theorem move_rejects_cross_course (db : DB) (activityId : Int)
    (req : MoveRequest) (c : Int) (a : ActivityRow) (owner : Nat)
    (haid : 0 < activityId)
    (hfind : findActivityCourseId db activityId = some (a, owner))
    (hc : req.courseId = some c) (hcpos : 0 < c) (hne : c ≠ (owner : Int)) :
    moveActivity db activityId req = (.error .badRequest, db) := by
  have hm : jsCourseMismatch req.courseId owner = true := by
    simp only [jsCourseMismatch, hc, Bool.and_eq_true, bne_iff_ne, ne_eq]
    exact ⟨by omega, hne⟩
  unfold moveActivity
  rw [if_neg (by omega)]
  simp only [hfind, hm, if_true]

/-- Closed instance of `move_rejects_cross_course`: activity 1 belongs to
course 1; a body naming course 2 is rejected with no change to the store. -/
theorem move_rejects_cross_course_witness :
    moveActivity demoDB 1
        { week := 1, slot := 1, courseId := some 2, position := none } =
      (.error .badRequest, demoDB) :=
  move_rejects_cross_course demoDB 1
    { week := 1, slot := 1, courseId := some 2, position := none } 2
    { id := 1, halfDayId := 1, specificObjective := "a", description := "d",
      durationMinutes := 60, format := "exercice", materials := none,
      position := some 1 } 1
    (by decide) (by decide) rfl (by decide) (by decide)

/-- C7 counterexample.  Creating an activity in the empty half-day
(week 1, slot 2) of `demoDB` (so `count + 1 = 1`) stores the new row
(id 4) with `position = none`, not `some 1`: the `INSERT` at
server.js:913-917 names no position column. -/
theorem create_position_null_counterexample :
    ((createActivity demoDB demoCreateReq).2).activities.map
        (fun a => (a.id, a.position)) =
      [(1, some 1), (2, some 2), (3, some 1), (4, (none : Option Nat))] := by
  rfl

/-- C7 amended.  A successful create appends exactly one activity row,
attached to the resolved half-day, with `position = NULL`; no existing
activity row is touched. -/
theorem create_appends_unpositioned (db : DB) (req : CreateRequest)
    (resp : CreateResponse) (db' : DB)
    (h : createActivity db req = (.ok resp, db')) :
    ∃ row : ActivityRow,
      db'.activities = db.activities ++ [row] ∧
      row.halfDayId = resp.halfDayId ∧ row.id = resp.activityId ∧
      row.position = none := by
  unfold createActivity at h
  split at h
  · rename_i nameStr hname
    split at h
    · exact absurd h (by simp)
    · split at h
      · exact absurd h (by simp)
      · split at h
        · exact absurd h (by simp)
        · split at h
          · exact absurd h (by simp)
          · split at h
            · exact absurd h (by simp)
            · split at h
              · exact absurd h (by simp)
              · split at h
                · exact absurd h (by simp)
                · split at h
                  · exact absurd h (by simp)
                  · rename_i description hdesc
                    split at h
                    · exact absurd h (by simp)
                    · rename_i halfDay db1 heq
                      simp only [Prod.mk.injEq, Except.ok.injEq] at h
                      obtain ⟨hresp, hdb⟩ := h
                      subst hdb
                      subst hresp
                      have hact := getHalfDayForCourse_activities db
                        req.courseId.toNat req.week.toNat req.slot.toNat
                      rw [heq] at hact
                      have hact' : db1.activities = db.activities := by
                        simpa using hact
                      refine ⟨{ id := db1.nextActivityId, halfDayId := halfDay.id,
                                specificObjective := jsTrim nameStr,
                                description := description,
                                durationMinutes := req.duration,
                                format := (match req.format with
                                  | .str s => s | _ => ""),
                                materials := sanitizeMaterials req.materials,
                                position := none }, ?_, rfl, rfl, rfl⟩
                      simp only []
                      rw [hact']
  · exact absurd h (by simp)

/-- Closed instance of `create_appends_unpositioned` on the demo store. -/
theorem create_appends_unpositioned_witness :
    ∃ row : ActivityRow,
      ((createActivity demoDB demoCreateReq).2).activities =
        demoDB.activities ++ [row] ∧
      row.halfDayId = 3 ∧ row.id = 4 ∧ row.position = none := by
  have h : createActivity demoDB demoCreateReq =
      (.ok { activityId := 4, halfDayId := 3, sessionDate := 1, period := "matin" },
        (createActivity demoDB demoCreateReq).2) := rfl
  exact create_appends_unpositioned demoDB demoCreateReq _ _ h

/-- C10 counterexample.  With `details = 1` (a truthy non-string), the
create handler does not store the default description: evaluating
`(details || '').trim()` throws a `TypeError` (`details.trim` is not a
function), the route answers 500 and no activity row is stored. -/
theorem details_nonstring_counterexample :
    (createActivity demoDB demoCreateReqNum).1 = .error .serverError ∧
    ((createActivity demoDB demoCreateReqNum).2).activities =
      demoDB.activities :=
  ⟨rfl, rfl⟩

/-- C10 amended.  The description expression shared by create
(server.js:905) and edit (server.js:985): a falsy `details` (missing,
null, false, 0 or the empty string) and a whitespace-only string store
the default text; any other string stores its trim; a truthy non-string
value throws, so nothing is stored at all; a description that is stored
is never empty. -/
theorem sanitizeDescription_spec (v : JsVal) :
    (v.truthy = false → sanitizeDescription v = .ok "Description à compléter") ∧
    (∀ s : String, v = .str s → jsTrim s = "" →
      sanitizeDescription v = .ok "Description à compléter") ∧
    (∀ s : String, v = .str s → jsTrim s ≠ "" →
      sanitizeDescription v = .ok (jsTrim s)) ∧
    ((match v with | .str _ => False | _ => v.truthy = true) →
      sanitizeDescription v = .error ()) ∧
    (∀ s : String, sanitizeDescription v = .ok s → s ≠ "") := by
  cases v with
  | undef => exact ⟨fun _ => rfl, by simp, by simp, fun hc => absurd hc (by simp [JsVal.truthy]), by intro s hs; simp [sanitizeDescription, JsVal.truthy] at hs; subst hs; decide⟩
  | nullv => exact ⟨fun _ => rfl, by simp, by simp, fun hc => absurd hc (by simp [JsVal.truthy]), by intro s hs; simp [sanitizeDescription, JsVal.truthy] at hs; subst hs; decide⟩
  | boolean b =>
    cases b with
    | false => exact ⟨fun _ => rfl, by simp, by simp, by simp [JsVal.truthy], by intro s hs; simp [sanitizeDescription, JsVal.truthy] at hs; subst hs; decide⟩
    | true => exact ⟨by simp [JsVal.truthy], by simp, by simp, fun _ => rfl, by intro s hs; simp [sanitizeDescription, JsVal.truthy] at hs⟩
  | num n =>
    by_cases hn : n = 0
    · subst hn
      exact ⟨fun _ => rfl, by simp, by simp, by simp [JsVal.truthy], by intro s hs; simp [sanitizeDescription, JsVal.truthy] at hs; subst hs; decide⟩
    · refine ⟨?_, by simp, by simp, fun _ => ?_, ?_⟩
      · intro ht; simp [JsVal.truthy, hn] at ht
      · simp [sanitizeDescription, JsVal.truthy, hn]
      · intro s hs; simp [sanitizeDescription, JsVal.truthy, hn] at hs
  | str s0 =>
    by_cases h0 : s0 = ""
    · subst h0
      exact ⟨fun _ => rfl, by intro s hs _; cases hs; rfl, by intro s hs ht; cases hs; simp at ht; exact absurd rfl ht, by simp, by intro s hs; simp [sanitizeDescription, JsVal.truthy] at hs; subst hs; decide⟩
    · refine ⟨?_, ?_, ?_, by simp, ?_⟩
      · intro ht; simp [JsVal.truthy, h0] at ht
      · intro s hs htrim
        cases hs
        simp [sanitizeDescription, JsVal.truthy, h0, htrim]
      · intro s hs htrim
        cases hs
        simp [sanitizeDescription, JsVal.truthy, h0, htrim]
      · intro s hs
        simp only [sanitizeDescription, JsVal.truthy] at hs
        rw [if_pos (by simpa using h0)] at hs
        simp only [Except.ok.injEq] at hs
        subst hs
        split
        · decide
        · rename_i htrim
          simpa using htrim

/-- Closed instance of `sanitizeDescription_spec`. -/
theorem sanitizeDescription_spec_witness :
    sanitizeDescription (.str "  hi ") = .ok (jsTrim "  hi ") :=
  (sanitizeDescription_spec (.str "  hi ")).2.2.1 "  hi " rfl (by decide)

/-- C8 counterexample.  Moving activity 1 into half-day 2 through the
edit handler does not perform move-style resequencing of the destination:
the destination positions end up `[6, 5]` (`MAX(position) + 1` appended
next to the legacy gap), not the contiguous `[1, 2]` a move-style
resequence would write. -/
theorem edit_no_resequence_counterexample :
    (editActivity db8 1 editMoveReq).1 = .ok 2 ∧
    (((editActivity db8 1 editMoveReq).2).activities.filter
        (fun a => a.halfDayId == 2)).map (fun a => a.position) =
      [some 6, some 5] ∧
    ([some 6, some 5] ≠ [some 1, some 2] ∧
      ([some 6, some 5] : List (Option Nat)) ≠ [some 2, some 1]) :=
  ⟨rfl, rfl, by decide⟩

/-- The joined lookup pins the `find?` over the activities table. -/
theorem findActivityCourseId_find (db : DB) (activityId : Int)
    (a0 : ActivityRow) (owner : Nat)
    (h : findActivityCourseId db activityId = some (a0, owner)) :
    db.activities.find? (fun a => (a.id : Int) == activityId) = some a0 := by
  unfold findActivityCourseId at h
  split at h
  · exact absurd h (by simp)
  · rename_i a ha
    split at h
    · exact absurd h (by simp)
    · split at h
      · simp only [Option.some.injEq, Prod.mk.injEq] at h
        rw [ha, h.1]
      · exact absurd h (by simp)

/-- C8 amended.  For a successful edit of activity `a0`:
if the resolved target half-day is `a0`'s current one, no activity's
position changes at all; if it differs, every other activity keeps its
position and `a0` is stored in the target half-day with position
`COALESCE(MAX(position), 0) + 1` computed over the target half-day —
the destination is not resequenced, positions of other rows are never
rewritten. -/
theorem edit_position_semantics (db : DB) (activityId : Int)
    (req : EditRequest) (hid : Nat) (db' : DB) (a0 : ActivityRow) (owner : Nat)
    (hfind : findActivityCourseId db activityId = some (a0, owner))
    (hok : editActivity db activityId req = (.ok hid, db')) :
    (a0.halfDayId = hid →
      db'.activities.map (fun a => (a.id, a.position)) =
        db.activities.map (fun a => (a.id, a.position))) ∧
    (a0.halfDayId ≠ hid →
      (∀ a' ∈ db'.activities, a'.id ≠ a0.id →
        ∃ a ∈ db.activities, a.id = a'.id ∧ a.position = a'.position) ∧
      ∃ a' ∈ db'.activities, a'.id = a0.id ∧ a'.halfDayId = hid ∧
        a'.position = some (maxPositionIn db.activities hid + 1)) := by
  have hfa := findActivityCourseId_find db activityId a0 owner hfind
  have hpa : ((a0.id : Int) == activityId) = true := by
    have := List.find?_some hfa
    simpa using this
  have ha0mem : a0 ∈ db.activities := List.mem_of_find?_eq_some hfa
  unfold editActivity at hok
  split at hok
  · exact absurd hok (by simp)
  · split at hok
    · exact absurd hok (by simp)
    · rename_i a1 cid1 heq1
      rw [hfind] at heq1
      simp only [Option.some.injEq, Prod.mk.injEq] at heq1
      obtain ⟨ha1, hcid1⟩ := heq1
      subst ha1
      subst hcid1
      split at hok
      · exact absurd hok (by simp)
      · split at hok
        · rename_i nameStr hname
          split at hok
          · exact absurd hok (by simp)
          · split at hok
            · exact absurd hok (by simp)
            · split at hok
              · exact absurd hok (by simp)
              · split at hok
                · exact absurd hok (by simp)
                · split at hok
                  · exact absurd hok (by simp)
                  · split at hok
                    · exact absurd hok (by simp)
                    · rename_i description hdesc
                      split at hok
                      · exact absurd hok (by simp)
                      · rename_i targetHalfDay db1 heq
                        simp only [Prod.mk.injEq, Except.ok.injEq] at hok
                        obtain ⟨hhid, hdb⟩ := hok
                        subst hhid
                        subst hdb
                        have hact := getHalfDayForCourse_activities db owner
                          req.week.toNat req.slot.toNat
                        rw [heq] at hact
                        have hacts : db1.activities = db.activities := by
                          simpa using hact
                        constructor
                        · intro hsame
                          have hch : (targetHalfDay.id != a0.halfDayId) = false := by
                            simp [hsame]
                          simp only [hacts, List.map_map]
                          apply List.map_congr_left
                          intro a _
                          simp only [Function.comp_apply, editUpdateRow, hch,
                            Bool.false_eq_true, if_false]
                          split <;> rfl
                        · intro hdiff
                          have hch : (targetHalfDay.id != a0.halfDayId) = true := by
                            simp only [bne_iff_ne, ne_eq]
                            exact fun hcontra => hdiff hcontra.symm
                          constructor
                          · intro a' ha' hne
                            simp only [hacts] at ha'
                            obtain ⟨a, ha, rfl⟩ := List.mem_map.mp ha'
                            by_cases hcond : ((a.id : Int) == activityId) = true
                            · exfalso
                              apply hne
                              have h1 : (a.id : Int) = activityId := by
                                simpa using hcond
                              have h2 : (a0.id : Int) = activityId := by
                                simpa using hpa
                              have hids : a.id = a0.id := by
                                have := h1.trans h2.symm
                                exact_mod_cast this
                              simp [editUpdateRow, hcond, hids, h2]
                            · simp only [editUpdateRow, hcond, Bool.false_eq_true,
                                if_false]
                              exact ⟨a, ha, rfl, rfl⟩
                          · refine ⟨editUpdateRow activityId targetHalfDay.id
                              (targetHalfDay.id != a0.halfDayId)
                              (maxPositionIn db1.activities targetHalfDay.id + 1)
                              (jsTrim nameStr) description req.duration
                              (match req.format with | .str s => s | _ => "")
                              (sanitizeMaterials req.materials) a0, ?_, ?_, ?_, ?_⟩
                            · simp only [hacts]
                              exact List.mem_map_of_mem _ ha0mem
                            · simp [editUpdateRow, hpa]
                            · simp [editUpdateRow, hpa]
                            · simp [editUpdateRow, hpa, hch, hacts]
        · exact absurd hok (by simp)

/-- Closed instance of `edit_position_semantics`: moving activity 1 of
`db8` into half-day 2 stores it there with position `5 + 1 = 6`. -/
theorem edit_position_semantics_witness :
    ∃ a' ∈ ((editActivity db8 1 editMoveReq).2).activities,
      a'.id = 1 ∧ a'.halfDayId = 2 ∧
      a'.position = some (maxPositionIn db8.activities 2 + 1) := by
  have hok : editActivity db8 1 editMoveReq =
      (.ok 2, (editActivity db8 1 editMoveReq).2) := rfl
  have hfind : findActivityCourseId db8 1 =
      some ({ id := 1, halfDayId := 1, specificObjective := "a",
              description := "d", durationMinutes := 30, format := "exercice",
              materials := none, position := some 1 }, 1) := rfl
  exact ((edit_position_semantics db8 1 editMoveReq 2 _ _ 1 hfind hok).2
    (by decide)).2

theorem mem_buildExpectedHalfDays {e : ExpectedHalfDay} {d s0 sw : Nat}
    (h : e ∈ buildExpectedHalfDays d s0 sw) :
    sw ≤ e.weekNumber ∧ e.weekNumber ≤ 5 ∧ e.slotIndex ≤ 2 ∧
      (e.sessionDate, e.period) =
        computeHalfDaySession d s0 (e.weekNumber - sw + 1) e.slotIndex := by
  unfold buildExpectedHalfDays at h
  simp only [List.mem_flatMap, List.mem_map, List.mem_range] at h
  obtain ⟨w, ⟨i, hi, rfl⟩, slot, hslot, rfl⟩ := h
  dsimp only
  exact ⟨by omega, by omega, by omega, rfl⟩

theorem buildExpectedHalfDays_covers {d s0 sw week slot : Nat}
    (h1 : sw ≤ week) (h5 : week ≤ 5) (hs : slot ≤ 2) :
    ∃ e ∈ buildExpectedHalfDays d s0 sw,
      e.weekNumber = week ∧ e.slotIndex = slot ∧
      (e.sessionDate, e.period) = computeHalfDaySession d s0 (week - sw + 1) slot := by
  unfold buildExpectedHalfDays
  simp only [List.mem_flatMap, List.mem_map, List.mem_range]
  refine ⟨{ weekNumber := week, slotIndex := slot,
            sessionDate := (computeHalfDaySession d s0 (week - sw + 1) slot).1,
            period := (computeHalfDaySession d s0 (week - sw + 1) slot).2 },
    ⟨week, ⟨week - sw, by omega, by omega⟩, slot, by omega, ?_⟩, rfl, rfl, rfl⟩
  have harg : week - sw + 1 = week - sw + 1 := rfl
  exact rfl

theorem buildExpectedHalfDays_keys (d s0 sw : Nat) :
    (buildExpectedHalfDays d s0 sw).map (fun e => (e.weekNumber, e.slotIndex)) =
      ((List.range (6 - sw)).map (fun i => sw + i)).flatMap
        (fun w => [(w, 0), (w, 1), (w, 2)]) := by
  unfold buildExpectedHalfDays
  rw [List.map_flatMap]
  congr 1

theorem buildExpectedHalfDays_keys_nodup (d s0 sw : Nat) :
    ((buildExpectedHalfDays d s0 sw).map
      (fun e => (e.weekNumber, e.slotIndex))).Nodup := by
  rw [buildExpectedHalfDays_keys]
  rw [List.nodup_flatMap]
  constructor
  · intro x _
    simp
  · rw [List.pairwise_map]
    refine List.Pairwise.imp ?_ (List.pairwise_lt_range (6 - sw))
    intro a b hab x hxa hxb
    simp only [List.mem_cons, List.not_mem_nil, or_false] at hxa hxb
    have h1 : x.1 = sw + a := by
      rcases hxa with h | h | h <;> rw [h]
    have h2 : x.1 = sw + b := by
      rcases hxb with h | h | h <;> rw [h]
    omega

theorem insertMissingHalfDays_spec (cid : Nat) (ks : List (Nat × Nat))
    (L : List ExpectedHalfDay) :
    ∀ db : DB, ∃ ns : List HalfDayRow,
      (insertMissingHalfDays cid ks L db).halfDays = db.halfDays ++ ns ∧
      ns.map (fun h =>
          (h.courseId, h.weekNumber, h.slotIndex, h.sessionDate, h.period)) =
        (L.filter (fun e => !(ks.contains (e.weekNumber, e.slotIndex)))).map
          (fun e => (cid, e.weekNumber, e.slotIndex, e.sessionDate, e.period)) := by
  induction L with
  | nil =>
    intro db
    exact ⟨[], by simp [insertMissingHalfDays], by simp⟩
  | cons h rest ih =>
    intro db
    unfold insertMissingHalfDays
    split
    · rename_i hk
      obtain ⟨ns, h1, h2⟩ := ih db
      refine ⟨ns, h1, ?_⟩
      rw [h2, List.filter_cons_of_neg (by rw [hk]; decide)]
    · rename_i hk
      obtain ⟨ns, h1, h2⟩ := ih
        { db with
          halfDays := db.halfDays ++
            [{ id := db.nextHalfDayId, courseId := cid,
               weekNumber := h.weekNumber, slotIndex := h.slotIndex,
               sessionDate := h.sessionDate, period := h.period }],
          nextHalfDayId := db.nextHalfDayId + 1 }
      refine ⟨{ id := db.nextHalfDayId, courseId := cid,
                weekNumber := h.weekNumber, slotIndex := h.slotIndex,
                sessionDate := h.sessionDate, period := h.period } :: ns, ?_, ?_⟩
      · rw [h1]
        simp
      · rw [List.filter_cons_of_pos
          (by rw [Bool.not_eq_true] at hk; rw [hk]; decide)]
        simp only [List.map_cons]
        rw [h2]

theorem buildExpected_keys_one (d s0 : Nat) :
    (buildExpectedHalfDays d s0 1).map (fun e => (e.weekNumber, e.slotIndex)) =
      gridKeys := by
  rw [buildExpectedHalfDays_keys]
  rfl

theorem mem_gridKeys {w s : Nat} (h1 : 1 ≤ w) (h5 : w ≤ 5) (hs : s ≤ 2) :
    (w, s) ∈ gridKeys := by
  interval_cases w <;> interval_cases s <;> decide

theorem gridKeys_nodup : gridKeys.Nodup := by decide

theorem map_eq_imp {α β γ : Type} {f : α → γ} {g : β → γ} {ns : List α}
    {ms : List β} (h : ns.map f = ms.map g) :
    ∀ n ∈ ns, ∃ m ∈ ms, f n = g m := by
  intro n hn
  have hmem : f n ∈ ms.map g := h ▸ List.mem_map_of_mem f hn
  obtain ⟨m, hm, hmg⟩ := List.mem_map.mp hmem
  exact ⟨m, hm, hmg.symm⟩

theorem length_le_of_nodup_subset {S G : List (Nat × Nat)} (hSn : S.Nodup)
    (hsub : ∀ k ∈ S, k ∈ G) : S.length ≤ G.length :=
  calc S.length = S.toFinset.card := (List.toFinset_card_of_nodup hSn).symm
    _ ≤ G.toFinset.card := Finset.card_le_card (fun k hk => by
        rw [List.mem_toFinset] at hk ⊢
        exact hsub k hk)
    _ ≤ G.length := G.toFinset_card_le

theorem length_keys_after_fill {S G : List (Nat × Nat)}
    (hGn : G.Nodup) (hSn : S.Nodup) (hsub : ∀ k ∈ S, k ∈ G) :
    (S ++ G.filter (fun k => !(S.contains k))).length = G.length := by
  have hperm1 : List.Perm (G.filter (fun k => S.contains k)) S := by
    apply List.perm_of_nodup_nodup_toFinset_eq (hGn.filter _) hSn
    ext k
    simp only [List.mem_toFinset, List.mem_filter]
    constructor
    · rintro ⟨_, hk⟩
      simpa using hk
    · intro hk
      exact ⟨hsub k hk, by simpa using hk⟩
  have hperm2 := List.filter_append_perm (fun k => S.contains k) G
  have hperm3 :=
    (hperm1.symm.append_right (G.filter (fun k => !(S.contains k)))).trans hperm2
  exact hperm3.length_eq

theorem map_filter_key {α β : Type} (f : α → β) (p : β → Bool) (l : List α) :
    (l.filter (fun x => p (f x))).map f = (l.map f).filter p := by
  induction l with
  | nil => rfl
  | cons x xs ih =>
    simp only [List.filter_cons, List.map_cons]
    by_cases h : p (f x) = true
    · simp [h, ih]
    · simp [h, ih]

theorem length_listCourseHalfDays (db : DB) (cid : Nat) :
    (listCourseHalfDays db cid).length =
      (db.halfDays.filter (fun h => h.courseId == cid)).length :=
  length_sortWith halfDayLe _

theorem ensureHalfDaysForCourse_of_full (db : DB) (cid : Nat) (course : Course)
    (s0 : Nat) (hc : getCourse db cid = some course)
    (hp : slotToPeriod.findIdx? (fun p => p == course.startPeriod) = some s0)
    (hlen : 15 ≤ (listCourseHalfDays db cid).length) :
    ensureHalfDaysForCourse db cid = (listCourseHalfDays db cid, db) := by
  unfold ensureHalfDaysForCourse
  simp only [hc, hp]
  rw [if_pos hlen]

theorem ensureHalfDaysForCourse_of_missing (db : DB) (cid : Nat)
    (course : Course) (s0 : Nat) (hc : getCourse db cid = some course)
    (hp : slotToPeriod.findIdx? (fun p => p == course.startPeriod) = some s0)
    (hlen : ¬ 15 ≤ (listCourseHalfDays db cid).length) :
    ensureHalfDaysForCourse db cid =
      (listCourseHalfDays
        (insertMissingHalfDays cid
          ((listCourseHalfDays db cid).map (fun h => (h.weekNumber, h.slotIndex)))
          (buildExpectedHalfDays course.startDate s0 1) db) cid,
       insertMissingHalfDays cid
         ((listCourseHalfDays db cid).map (fun h => (h.weekNumber, h.slotIndex)))
         (buildExpectedHalfDays course.startDate s0 1) db) := by
  unfold ensureHalfDaysForCourse
  simp only [hc, hp]
  rw [if_neg hlen]

/-- C3.  For a course with a start date and a valid start period, over a
store whose existing half-days for that course carry in-range keys with no
duplicates (the `uq_half_days` unique constraint), `ensureHalfDays` is
idempotent: the second call returns exactly the first call's 15 half-days
and leaves the store untouched; moreover the first call keeps every
pre-existing half-day row byte-for-byte (never overwriting a sessionDate
or period) and inserts only rows for this course whose (weekNumber,
slotIndex) key was missing from the existing set. -/
theorem ensureHalfDays_idempotent (db : DB) (cid : Nat) (course : Course)
    (s0 : Nat)
    (hc : getCourse db cid = some course)
    (hp : slotToPeriod.findIdx? (fun p => p == course.startPeriod) = some s0)
    (hwf : ∀ h ∈ db.halfDays, h.courseId = cid →
      1 ≤ h.weekNumber ∧ h.weekNumber ≤ 5 ∧ h.slotIndex ≤ 2)
    (hnodup : ((db.halfDays.filter (fun h => h.courseId == cid)).map
      (fun h => (h.weekNumber, h.slotIndex))).Nodup) :
    ensureHalfDaysForCourse ((ensureHalfDaysForCourse db cid).2) cid =
        ensureHalfDaysForCourse db cid ∧
    ((ensureHalfDaysForCourse db cid).1).length = 15 ∧
    (∀ h ∈ db.halfDays, h ∈ ((ensureHalfDaysForCourse db cid).2).halfDays) ∧
    (∀ h ∈ ((ensureHalfDaysForCourse db cid).2).halfDays, h ∉ db.halfDays →
      h.courseId = cid ∧
      ∀ h0 ∈ db.halfDays, h0.courseId = cid →
        (h0.weekNumber, h0.slotIndex) ≠ (h.weekNumber, h.slotIndex)) := by
  have hEKperm : List.Perm
      ((listCourseHalfDays db cid).map (fun h => (h.weekNumber, h.slotIndex)))
      ((db.halfDays.filter (fun h => h.courseId == cid)).map
        (fun h => (h.weekNumber, h.slotIndex))) :=
    List.Perm.map _ (perm_sortWith halfDayLe _)
  have hEK_nodup : ((listCourseHalfDays db cid).map
      (fun h => (h.weekNumber, h.slotIndex))).Nodup :=
    hEKperm.nodup_iff.mpr hnodup
  have hEK_sub : ∀ k ∈ (listCourseHalfDays db cid).map
      (fun h => (h.weekNumber, h.slotIndex)), k ∈ gridKeys := by
    intro k hk
    obtain ⟨row, hrow, rfl⟩ := List.mem_map.mp hk
    have hrow' : row ∈ db.halfDays.filter (fun h => h.courseId == cid) :=
      (mem_sortWith halfDayLe _ row).mp hrow
    obtain ⟨hmem, hcid⟩ := List.mem_filter.mp hrow'
    have hb := hwf row hmem (by simpa using hcid)
    exact mem_gridKeys hb.1 hb.2.1 hb.2.2
  have hElen : (listCourseHalfDays db cid).length ≤ 15 := by
    have h1 := length_le_of_nodup_subset hEK_nodup hEK_sub
    rw [List.length_map] at h1
    exact h1
  by_cases hlen : 15 ≤ (listCourseHalfDays db cid).length
  · have he := ensureHalfDaysForCourse_of_full db cid course s0 hc hp hlen
    rw [he]
    refine ⟨he, ?_, fun h hh => hh, fun h hh hnot => absurd hh hnot⟩
    show (listCourseHalfDays db cid).length = 15
    omega
  · have he := ensureHalfDaysForCourse_of_missing db cid course s0 hc hp hlen
    obtain ⟨ns, hsplit, hmap⟩ := insertMissingHalfDays_spec cid
      ((listCourseHalfDays db cid).map (fun h => (h.weekNumber, h.slotIndex)))
      (buildExpectedHalfDays course.startDate s0 1) db
    have hns_all : ∀ n ∈ ns, n.courseId = cid ∧
        (n.weekNumber, n.slotIndex) ∉
          (listCourseHalfDays db cid).map
            (fun h => (h.weekNumber, h.slotIndex)) := by
      intro n hn
      obtain ⟨e, he', htup⟩ := map_eq_imp hmap n hn
      obtain ⟨heEXP, hpe⟩ := List.mem_filter.mp he'
      simp only [Prod.mk.injEq] at htup
      obtain ⟨hcid', hw, hs, -, -⟩ := htup
      refine ⟨hcid', ?_⟩
      rw [hw, hs]
      simpa using hpe
    have hfilter' : ((insertMissingHalfDays cid
          ((listCourseHalfDays db cid).map (fun h => (h.weekNumber, h.slotIndex)))
          (buildExpectedHalfDays course.startDate s0 1) db).halfDays.filter
            (fun h => h.courseId == cid)) =
        (db.halfDays.filter (fun h => h.courseId == cid)) ++ ns := by
      have hns_filter : ns.filter (fun h => h.courseId == cid) = ns :=
        List.filter_eq_self.mpr (fun n hn => by simp [(hns_all n hn).1])
      rw [hsplit, List.filter_append, hns_filter]
    have hlen15 : (listCourseHalfDays (insertMissingHalfDays cid
        ((listCourseHalfDays db cid).map (fun h => (h.weekNumber, h.slotIndex)))
        (buildExpectedHalfDays course.startDate s0 1) db) cid).length = 15 := by
      have h1 : (listCourseHalfDays (insertMissingHalfDays cid
          ((listCourseHalfDays db cid).map (fun h => (h.weekNumber, h.slotIndex)))
          (buildExpectedHalfDays course.startDate s0 1) db) cid).length =
          ((db.halfDays.filter (fun h => h.courseId == cid)) ++ ns).length := by
        rw [length_listCourseHalfDays, hfilter']
      have h2 := congrArg List.length hmap
      rw [List.length_map, List.length_map] at h2
      have h3 := map_filter_key
        (fun e : ExpectedHalfDay => (e.weekNumber, e.slotIndex))
        (fun k => !(((listCourseHalfDays db cid).map
          (fun h => (h.weekNumber, h.slotIndex))).contains k))
        (buildExpectedHalfDays course.startDate s0 1)
      rw [buildExpected_keys_one] at h3
      have h4 := congrArg List.length h3
      rw [List.length_map] at h4
      have h5 := length_keys_after_fill gridKeys_nodup hEK_nodup hEK_sub
      rw [List.length_append, List.length_map] at h5
      have h6 : (listCourseHalfDays db cid).length =
          (db.halfDays.filter (fun h => h.courseId == cid)).length :=
        length_listCourseHalfDays db cid
      rw [h1, List.length_append]
      have h7 : gridKeys.length = 15 := rfl
      omega
    rw [he]
    dsimp only
    refine ⟨?_, hlen15, ?_, ?_⟩
    · have hc' : getCourse (insertMissingHalfDays cid
          ((listCourseHalfDays db cid).map (fun h => (h.weekNumber, h.slotIndex)))
          (buildExpectedHalfDays course.startDate s0 1) db) cid = some course := by
        unfold getCourse
        rw [insertMissingHalfDays_courses]
        exact hc
      exact ensureHalfDaysForCourse_of_full _ cid course s0 hc' hp (by omega)
    · intro h hh
      rw [hsplit]
      exact List.mem_append_left _ hh
    · intro h hh hnot
      rw [hsplit] at hh
      rcases List.mem_append.mp hh with h1 | h1
      · exact absurd h1 hnot
      · obtain ⟨hcid', hkey⟩ := hns_all h h1
        refine ⟨hcid', ?_⟩
        intro h0 hh0 hcid0 hkeyeq
        apply hkey
        rw [← hkeyeq]
        apply List.mem_map_of_mem
        rw [show listCourseHalfDays db cid =
          sortWith halfDayLe (db.halfDays.filter (fun h => h.courseId == cid))
          from rfl]
        rw [mem_sortWith]
        exact List.mem_filter.mpr ⟨hh0, by simpa using hcid0⟩

/-- Closed instance of `ensureHalfDays_idempotent` on a course with 14 of
its 15 half-days missing. -/
theorem ensureHalfDays_idempotent_witness :
    ensureHalfDaysForCourse ((ensureHalfDaysForCourse demoSparseDB 1).2) 1 =
        ensureHalfDaysForCourse demoSparseDB 1 ∧
    ((ensureHalfDaysForCourse demoSparseDB 1).1).length = 15 := by
  have h := ensureHalfDays_idempotent demoSparseDB 1
    { id := 1, startDate := 0, startPeriod := "matin" } 0 rfl rfl
    (by decide) (by decide)
  exact ⟨h.1, h.2.1⟩

theorem upsertHalfDays_courses (cid : Nat) (L : List ExpectedHalfDay) :
    ∀ db : DB, (upsertHalfDays cid L db).courses = db.courses := by
  induction L with
  | nil => intro db; rfl
  | cons h rest ih =>
    intro db
    unfold upsertHalfDays
    split
    · exact ih _
    · exact ih _

theorem upsertHalfDays_frame (cid : Nat) (L : List ExpectedHalfDay) :
    ∀ db : DB, ∀ r : HalfDayRow,
      (∀ e ∈ L, ¬(r.courseId = cid ∧ r.weekNumber = e.weekNumber ∧
        r.slotIndex = e.slotIndex)) →
      (r ∈ (upsertHalfDays cid L db).halfDays ↔ r ∈ db.halfDays) := by
  induction L with
  | nil => intro db r _; exact Iff.rfl
  | cons h rest ih =>
    intro db r hr
    have hrest : ∀ e ∈ rest, ¬(r.courseId = cid ∧ r.weekNumber = e.weekNumber ∧
        r.slotIndex = e.slotIndex) :=
      fun e he => hr e (List.mem_cons_of_mem _ he)
    have hhead := hr h (List.mem_cons_self _ _)
    unfold upsertHalfDays
    split
    · rename_i hex
      rw [ih _ r hrest]
      constructor
      · intro hm
        obtain ⟨r0, hr0, hfr⟩ := List.mem_map.mp hm
        by_cases hcond : (r0.courseId == cid && r0.weekNumber == h.weekNumber &&
            r0.slotIndex == h.slotIndex) = true
        · exfalso
          rw [if_pos hcond] at hfr
          simp only [Bool.and_eq_true, beq_iff_eq] at hcond
          exact hhead (by rw [← hfr]; exact ⟨hcond.1.1, hcond.1.2, hcond.2⟩)
        · rw [if_neg hcond] at hfr
          rw [← hfr]
          exact hr0
      · intro hm
        have hcond : ¬(r.courseId == cid && r.weekNumber == h.weekNumber &&
            r.slotIndex == h.slotIndex) = true := by
          intro hcc
          simp only [Bool.and_eq_true, beq_iff_eq] at hcc
          exact hhead ⟨hcc.1.1, hcc.1.2, hcc.2⟩
        exact List.mem_map.mpr ⟨r, hm, if_neg hcond⟩
    · rename_i hex
      rw [ih _ r hrest]
      rw [List.mem_append]
      constructor
      · rintro (hm | hm)
        · exact hm
        · exfalso
          rw [List.mem_singleton] at hm
          subst hm
          exact hhead ⟨rfl, rfl, rfl⟩
      · exact Or.inl

theorem upsertHalfDays_sets (cid : Nat) (L : List ExpectedHalfDay) :
    ∀ db : DB, ∀ e ∈ L,
      (L.map (fun e => (e.weekNumber, e.slotIndex))).Nodup →
      ∃ r ∈ (upsertHalfDays cid L db).halfDays,
        r.courseId = cid ∧ r.weekNumber = e.weekNumber ∧
        r.slotIndex = e.slotIndex ∧ r.sessionDate = e.sessionDate ∧
        r.period = e.period := by
  induction L with
  | nil =>
    intro db e he _
    exact absurd he (List.not_mem_nil e)
  | cons h rest ih =>
    intro db e he hnodup
    have hnodup' : (rest.map (fun e => (e.weekNumber, e.slotIndex))).Nodup :=
      (List.nodup_cons.mp hnodup).2
    have hne : ∀ e' ∈ rest,
        (h.weekNumber, h.slotIndex) ≠ (e'.weekNumber, e'.slotIndex) := by
      intro e' he' hkeq
      have hmm : (e'.weekNumber, e'.slotIndex) ∈
          rest.map (fun e => (e.weekNumber, e.slotIndex)) :=
        List.mem_map_of_mem _ he'
      rw [← hkeq] at hmm
      exact (List.nodup_cons.mp hnodup).1 hmm
    rcases List.mem_cons.mp he with rfl | he'
    · unfold upsertHalfDays
      split
      · rename_i hex
        obtain ⟨r0, hr0, hcond⟩ := List.any_eq_true.mp hex
        refine ⟨{ r0 with sessionDate := e.sessionDate, period := e.period },
          ?_, ?_, ?_, ?_, rfl, rfl⟩
        · apply (upsertHalfDays_frame cid rest _ _ ?_).mpr
          · exact List.mem_map.mpr ⟨r0, hr0, if_pos hcond⟩
          · intro e' he' hcontra
            simp only [Bool.and_eq_true, beq_iff_eq] at hcond
            exact hne e' he' (by
              rw [Prod.mk.injEq]
              exact ⟨hcond.1.2 ▸ hcontra.2.1.symm ▸ rfl, hcond.2 ▸ hcontra.2.2.symm ▸ rfl⟩)
        · simp only [Bool.and_eq_true, beq_iff_eq] at hcond
          exact hcond.1.1
        · simp only [Bool.and_eq_true, beq_iff_eq] at hcond
          exact hcond.1.2
        · simp only [Bool.and_eq_true, beq_iff_eq] at hcond
          exact hcond.2
      · rename_i hex
        refine ⟨{ id := db.nextHalfDayId, courseId := cid,
                  weekNumber := e.weekNumber, slotIndex := e.slotIndex,
                  sessionDate := e.sessionDate, period := e.period },
          ?_, rfl, rfl, rfl, rfl, rfl⟩
        apply (upsertHalfDays_frame cid rest _ _ ?_).mpr
        · exact List.mem_append_right _ (List.mem_singleton.mpr rfl)
        · intro e' he' hcontra
          exact hne e' he' (by
            rw [Prod.mk.injEq]
            exact ⟨hcontra.2.1.symm ▸ rfl, hcontra.2.2.symm ▸ rfl⟩)
    · unfold upsertHalfDays
      split
      · exact ih _ e he' hnodup'
      · exact ih _ e he' hnodup'

theorem find?_map_updateCourse (cs : List Course) (cid d : Nat)
    (course : Course)
    (hfind : cs.find? (fun c => c.id == cid) = some course) :
    (cs.map (fun c =>
        if c.id == cid then { c with startDate := d } else c)).find?
      (fun c => c.id == cid) = some { course with startDate := d } := by
  induction cs with
  | nil => simp at hfind
  | cons c rest ih =>
    simp only [List.map_cons]
    by_cases hcond : (c.id == cid) = true
    · have h1 : (c :: rest).find? (fun c => c.id == cid) = some c :=
        List.find?_cons_of_pos _ hcond
      rw [h1, Option.some.injEq] at hfind
      subst hfind
      have h2 : ((if (c.id == cid) = true then { c with startDate := d } else c) ::
          rest.map (fun c =>
            if (c.id == cid) = true then { c with startDate := d } else c)).find?
          (fun c => c.id == cid) =
          some (if (c.id == cid) = true then { c with startDate := d } else c) := by
        apply List.find?_cons_of_pos
        rw [if_pos hcond]
        exact hcond
      rw [h2, if_pos hcond]
    · have h1 : (c :: rest).find? (fun c => c.id == cid) =
          rest.find? (fun c => c.id == cid) :=
        List.find?_cons_of_neg _ hcond
      rw [h1] at hfind
      have h2 : ((if (c.id == cid) = true then { c with startDate := d } else c) ::
          rest.map (fun c =>
            if (c.id == cid) = true then { c with startDate := d } else c)).find?
          (fun c => c.id == cid) =
          (rest.map (fun c =>
            if (c.id == cid) = true then { c with startDate := d } else c)).find?
          (fun c => c.id == cid) := by
        apply List.find?_cons_of_neg
        rw [if_neg hcond]
        exact hcond
      rw [h2]
      exact ih hfind

/-- C6.  Rescheduling course `cid` from week `w` (1..5) with a valid new
start date: (i) half-day rows of that course for weeks before `w` are
exactly those of the old store — their sessionDate/period are untouched
and nothing is added there; (ii) every (week, slot) of weeks `w..5` is
present afterwards with the session computed from the new date as the
first day of week `w`, keeping the course's original start period; and
(iii) the course row's startDate becomes the new date exactly when
`w = 1`, and is unchanged otherwise. -/
theorem reschedule_spec (db : DB) (cid w : Int) (newStart : Nat)
    (course : Course) (s0 : Nat)
    (hcid : 0 < cid) (hw1 : 1 ≤ w) (hw5 : w ≤ 5)
    (hc : getCourse db cid.toNat = some course)
    (hp : slotToPeriod.findIdx? (fun p => p == course.startPeriod) = some s0) :
    (∀ r : HalfDayRow, r.courseId = cid.toNat → r.weekNumber < w.toNat →
      (r ∈ ((rescheduleWeek db cid w (some newStart)).2).halfDays ↔
        r ∈ db.halfDays)) ∧
    (∀ week slot : Nat, w.toNat ≤ week → week ≤ 5 → slot ≤ 2 →
      ∃ r ∈ ((rescheduleWeek db cid w (some newStart)).2).halfDays,
        r.courseId = cid.toNat ∧ r.weekNumber = week ∧ r.slotIndex = slot ∧
        (r.sessionDate, r.period) =
          computeHalfDaySession newStart s0 (week - w.toNat + 1) slot) ∧
    (getCourse ((rescheduleWeek db cid w (some newStart)).2) cid.toNat =
      some { course with
        startDate := if w = 1 then newStart else course.startDate }) := by
  have he : rescheduleWeek db cid w (some newStart) =
      (.ok (listCourseHalfDays (upsertHalfDays cid.toNat
          (buildExpectedHalfDays newStart s0 w.toNat)
          (if w == 1 then
            { db with courses := db.courses.map (fun c =>
                if c.id == cid.toNat then { c with startDate := newStart }
                else c) }
          else db)) cid.toNat),
        upsertHalfDays cid.toNat (buildExpectedHalfDays newStart s0 w.toNat)
          (if w == 1 then
            { db with courses := db.courses.map (fun c =>
                if c.id == cid.toNat then { c with startDate := newStart }
                else c) }
          else db)) := by
    unfold rescheduleWeek
    rw [if_neg (by omega), if_neg (by omega)]
    simp only [hc, hp]
  have hhd : (if w == 1 then
      { db with courses := db.courses.map (fun c =>
          if c.id == cid.toNat then { c with startDate := newStart }
          else c) }
    else db).halfDays = db.halfDays := by
    split <;> rfl
  rw [he]
  dsimp only
  refine ⟨?_, ?_, ?_⟩
  · intro r hrc hrw
    rw [upsertHalfDays_frame cid.toNat _ _ r ?_, hhd]
    intro e he' hcontra
    have hb := mem_buildExpectedHalfDays he'
    omega
  · intro week slot hw hweek5 hslot
    obtain ⟨e, he', hew, hes, hval⟩ :=
      @buildExpectedHalfDays_covers newStart s0 w.toNat week slot hw hweek5 hslot
    obtain ⟨r, hr, hr1, hr2, hr3, hr4, hr5⟩ :=
      upsertHalfDays_sets cid.toNat (buildExpectedHalfDays newStart s0 w.toNat)
        _ e he' (buildExpectedHalfDays_keys_nodup newStart s0 w.toNat)
    refine ⟨r, hr, hr1, by omega, by omega, ?_⟩
    rw [hr4, hr5, hew, hes] at *
    rw [Prod.mk.injEq] at hval ⊢
    exact ⟨hval.1, hval.2⟩
  · have hcq : getCourse (upsertHalfDays cid.toNat
        (buildExpectedHalfDays newStart s0 w.toNat)
        (if w == 1 then
          { db with courses := db.courses.map (fun c =>
              if c.id == cid.toNat then { c with startDate := newStart }
              else c) }
        else db)) cid.toNat =
        getCourse (if w == 1 then
          { db with courses := db.courses.map (fun c =>
              if c.id == cid.toNat then { c with startDate := newStart }
              else c) }
        else db) cid.toNat := by
      unfold getCourse
      rw [upsertHalfDays_courses]
    rw [hcq]
    by_cases hw : w = 1
    · rw [if_pos (by simp [hw]), if_pos hw]
      exact find?_map_updateCourse db.courses cid.toNat newStart course hc
    · rw [if_neg (by simp [hw]), if_neg hw]
      exact hc

/-- Closed instance of `reschedule_spec`: rescheduling course 1 of the
demo store from week 3 to day 100 materializes week 3 slot 0 at the
session computed from the new date. -/
theorem reschedule_spec_witness :
    ∃ r ∈ ((rescheduleWeek demoDB 1 3 (some 100)).2).halfDays,
      r.courseId = 1 ∧ r.weekNumber = 3 ∧ r.slotIndex = 0 ∧
      (r.sessionDate, r.period) = computeHalfDaySession 100 0 1 0 :=
  ((reschedule_spec demoDB 1 3 100
      { id := 1, startDate := 0, startPeriod := "matin" } 0
      (by decide) (by decide) (by decide) rfl rfl).2.1) 3 0
    (by decide) (by decide) (by decide)

end Coursio
